import Mathlib

/-!
Formal model of the raw Yjs WebSocket relay server
(`apps/backend/dist/raw-server.js`).

The relay is embedded shallowly:

* Connections are identified by natural numbers; the transport layer is
  modelled by a per-connection send outcome (`SendOutcome`), constant during
  one handler invocation.
* The CRDT document is modelled per the external contract of section 6 of the
  written specification: a document is a finite set of opaque items, an
  update is a finite set of items, `applyUpdate` is union, a state vector is
  the set of seen items, and the minimal catch-up update for a state vector
  `sv` is the set difference.  The `update` event of the document fires with
  the incremental new content exactly when the applied update contains
  unseen items, with the applying connection as origin.
* The awareness (presence) library (`y-protocols/awareness`) is modelled
  after its real semantics: per-client clocks and states,
  `applyAwarenessUpdate` (which emits the `update` event exactly when some
  entry was accepted), `removeAwarenessStates` and `encodeAwarenessUpdate`.
* JavaScript `Map`s are modelled as association lists preserving insertion
  order (`setA` replaces in place, `delA` removes all entries with the key;
  keys are unique by construction).  Rooms are resolved by name, which
  coincides with the reference-based resolution of the source on reachable
  states.
* Sends carry explicit fuel because a failing send triggers `closeConn`,
  whose removal broadcast again sends; every recursive call strictly
  decreases the fuel, and the top-level entry points supply more fuel than
  any cascade appearing in the theorems below can consume.  The removal
  broadcast iterates over a snapshot of the remaining connections, which
  agrees with the live iteration of the source whenever the remaining
  transports accept the write (the hypothesis under which broadcasts are
  characterised below).
-/

section AssocList

variable {α : Type} {β : Type} [DecidableEq α]

def getA : List (α × β) → α → Option β
  | [], _ => none
  | p :: rest, k => if p.1 = k then some p.2 else getA rest k

def setA : List (α × β) → α → β → List (α × β)
  | [], k, v => [(k, v)]
  | p :: rest, k, v => if p.1 = k then (k, v) :: rest else p :: setA rest k v

def delA (l : List (α × β)) (k : α) : List (α × β) :=
  l.filter (fun p => if p.1 = k then false else true)

def keysA (l : List (α × β)) : List α := l.map (fun p => p.1)

end AssocList

/-- Entry of a decoded awareness update: client id, clock, and state
(`none` models the JSON `null` state of a departing participant). -/
structure AwEntry where
  client : Nat
  clock : Nat
  state : Option String
deriving DecidableEq, Repr

/-- Awareness instance: the `states` map and the `meta` clock map of
`y-protocols/awareness` (time stamps are irrelevant to the relay and
omitted). -/
structure Awareness where
  states : List (Nat × String)
  meta : List (Nat × Nat)
deriving DecidableEq, Repr

/-- Classification of an accepted awareness entry, mirroring the
`added` / `updated` / `removed` arrays of `applyAwarenessUpdate`. -/
inductive AwTag
| tAdded
| tUpdated
| tRemoved
deriving DecidableEq, Repr

/-- Processing of one entry of an awareness update, as in the loop body of
`applyAwarenessUpdate`: the entry is accepted if its clock is newer, or
equal with a `null` state for a currently present client; a `null` state for
the local client with non-null local state bumps the clock instead of
deleting. -/
def applyEntry (sid : Nat) (aw : Awareness) (e : AwEntry) : Awareness × Option AwTag :=
  let clientMeta := getA aw.meta e.client
  let currClock := clientMeta.getD 0
  if currClock < e.clock ∨
      (currClock = e.clock ∧ e.state = none ∧ (getA aw.states e.client).isSome) then
    let sc : List (Nat × String) × Nat :=
      match e.state with
      | none =>
        if e.client = sid ∧ (getA aw.states sid).isSome then (aw.states, e.clock + 1)
        else (delA aw.states e.client, e.clock)
      | some st => (setA aw.states e.client st, e.clock)
    let aw' : Awareness := ⟨sc.1, setA aw.meta e.client sc.2⟩
    let tag : Option AwTag :=
      match clientMeta, e.state with
      | none, none => none
      | none, some _ => some AwTag.tAdded
      | some _, none => some AwTag.tRemoved
      | some _, some _ => some AwTag.tUpdated
    (aw', tag)
  else (aw, none)

/-- Model of `awarenessProtocol.applyAwarenessUpdate`: processes the entries
in order and collects the added, updated and removed client ids. -/
def applyAwUpdate (sid : Nat) : Awareness → List AwEntry → Awareness × List Nat × List Nat × List Nat
  | aw, [] => (aw, [], [], [])
  | aw, e :: rest =>
    let st := applyEntry sid aw e
    let rr := applyAwUpdate sid st.1 rest
    match st.2 with
    | some AwTag.tAdded => (rr.1, e.client :: rr.2.1, rr.2.2.1, rr.2.2.2)
    | some AwTag.tUpdated => (rr.1, rr.2.1, e.client :: rr.2.2.1, rr.2.2.2)
    | some AwTag.tRemoved => (rr.1, rr.2.1, rr.2.2.1, e.client :: rr.2.2.2)
    | none => rr

/-- Model of `awarenessProtocol.removeAwarenessStates`: deletes the states of
the listed clients that are present, returning the ids actually removed (the
meta clock is only bumped for the local client). -/
def removeStates (sid : Nat) : Awareness → List Nat → Awareness × List Nat
  | aw, [] => (aw, [])
  | aw, i :: rest =>
    if (getA aw.states i).isSome then
      let meta' := if i = sid then setA aw.meta i ((getA aw.meta i).getD 0 + 1) else aw.meta
      let rr := removeStates sid ⟨delA aw.states i, meta'⟩ rest
      (rr.1, i :: rr.2)
    else removeStates sid aw rest

/-- Model of `awarenessProtocol.encodeAwarenessUpdate`: one entry per listed
client with its current meta clock and current state (absent state encodes
as `null`). -/
def encodeAw (aw : Awareness) (ids : List Nat) : List AwEntry :=
  ids.map (fun i => ⟨i, (getA aw.meta i).getD 0, getA aw.states i⟩)

/-- Sync sub-protocol payloads (`y-protocols/sync`): step 1 carries a state
vector, step 2 and update carry an update blob. -/
inductive SyncMsg
| step1 (sv : Finset Nat)
| step2 (u : Finset Nat)
| upd (u : Finset Nat)
deriving DecidableEq

/-- Outbound frames: sync frame (type 0), awareness frame (type 1) carrying
an encoded update, stats frame (type 10) carrying the connection count. -/
inductive Msg
| sync (sm : SyncMsg)
| aw (entries : List AwEntry)
| stats (n : Nat)
deriving DecidableEq

/-- Observable transport events: delivery of a frame to a connection, and
closing of a connection's transport (`conn.close()`). -/
inductive Ev
| deliver (c : Nat) (m : Msg)
| closeTransport (c : Nat)
deriving DecidableEq

/-- Inbound frames as seen after decoding.  `malformed` is a frame whose
type tag cannot be read, `syncCorrupt` a sync frame whose payload throws
while being read or applied, `awCorrupt pre` an awareness frame whose
decoding throws after the entries `pre` were already applied (the update
event of the awareness instance is only emitted after the whole loop, so no
broadcast happens), and `unknown` an unrecognized frame type. -/
inductive InMsg
| sync (sm : SyncMsg)
| syncCorrupt
| aw (entries : List AwEntry)
| awCorrupt (pre : List AwEntry)
| stats
| unknown (t : Nat)
| malformed
deriving DecidableEq

/-- Result of attempting a write on a connection's transport: the transport
is open and accepts the write, is not open (`readyState !== OPEN`), or the
write fails. -/
inductive SendOutcome
| ok
| notOpen
| writeErr
deriving DecidableEq

/-- One room (`WSSharedDoc`): the random client id of the server's own
awareness instance, the connection map (connection id to controlled client
ids), the awareness instance and the document state. -/
structure Room where
  serverID : Nat
  conns : List (Nat × List Nat)
  awareness : Awareness
  ydoc : Finset Nat
deriving DecidableEq

/-- The server: the global `docs` map and the transport outcome of each
connection (absent means the transport is open and accepts writes). -/
structure Server where
  docs : List (String × Room)
  outcomes : List (Nat × SendOutcome)
deriving DecidableEq

/-- A freshly constructed `WSSharedDoc`: no connections, empty document, and
an awareness instance whose construction plus `setLocalState(null)` leaves
empty states and the local client at clock 1. -/
def freshRoom : Room := ⟨0, [], ⟨[], [(0, 1)]⟩, ∅⟩

def lookupRoom (s : Server) (n : String) : Option Room := getA s.docs n

def setRoom (s : Server) (n : String) (r : Room) : Server := ⟨setA s.docs n r, s.outcomes⟩

def dropRoom (s : Server) (n : String) : Server := ⟨delA s.docs n, s.outcomes⟩

def outcomeOf (s : Server) (c : Nat) : SendOutcome := (getA s.outcomes c).getD SendOutcome.ok

/-- One step of a broadcast loop: send the frame to one connection with the
given send function, threading the server state and accumulating events. -/
def bstepG (snd : Server → String → Nat → Msg → Server × List Ev) (n : String) (m : Msg)
    (acc : Server × List Ev) (c : Nat) : Server × List Ev :=
  let r := snd acc.1 n c m
  (r.1, acc.2 ++ r.2)

/-- Broadcast loop over a list of connections (`doc.conns.forEach` with a
send per connection). -/
def broadcastG (snd : Server → String → Nat → Msg → Server × List Ev) (n : String)
    (cs : List Nat) (m : Msg) (s : Server) : Server × List Ev :=
  cs.foldl (bstepG snd n m) (s, [])

/-- Model of `closeConn`: if the connection is registered, it is removed from
the connection map, its controlled awareness states are removed (which, when
any state was actually removed, fires the awareness update handler and
broadcasts the removal to the remaining connections), the room is destroyed
and deregistered when its connection set is empty, and finally the transport
is closed.  An unregistered connection only has its transport closed. -/
def closeConnCore (snd : Server → String → Nat → Msg → Server × List Ev)
    (s : Server) (n : String) (conn : Nat) : Server × List Ev :=
  match lookupRoom s n with
  | none => (s, [Ev.closeTransport conn])
  | some room =>
    match getA room.conns conn with
    | none => (s, [Ev.closeTransport conn])
    | some controlled =>
      let room1 : Room := { room with conns := delA room.conns conn }
      let rs := removeStates room1.serverID room1.awareness controlled
      let room2 : Room := { room1 with awareness := rs.1 }
      let s1 := setRoom s n room2
      let br :=
        if rs.2 = [] then (s1, ([] : List Ev))
        else broadcastG snd n (keysA room2.conns) (Msg.aw (encodeAw rs.1 rs.2)) s1
      let s3 :=
        match lookupRoom br.1 n with
        | some r2 => if r2.conns = [] then dropRoom br.1 n else br.1
        | none => br.1
      (s3, br.2 ++ [Ev.closeTransport conn])

/-- Model of `send`: a write on a non-open transport is skipped and treated
as a close; a failing write is treated as a close; otherwise the frame is
delivered.  The fuel bounds the send / close cascade. -/
def sendF : Nat → Server → String → Nat → Msg → Server × List Ev
  | 0, s, _, _, _ => (s, [])
  | fuel + 1, s, n, c, m =>
    match outcomeOf s c with
    | SendOutcome.ok => (s, [Ev.deliver c m])
    | _ => closeConnCore (sendF fuel) s n c

/-- Shared body of the sync step-2 / update branches of the message handler:
apply the update to the document; when it contains new content the update
event fires and the new content is broadcast to every connection except the
origin. -/
def applyDocUpdate (fuel : Nat) (s : Server) (n : String) (conn : Nat) (u : Finset Nat) :
    Server × List Ev :=
  match lookupRoom s n with
  | none => (s, [])
  | some room =>
    let newItems := u \ room.ydoc
    let room1 : Room := { room with ydoc := room.ydoc ∪ u }
    let s1 := setRoom s n room1
    if newItems = ∅ then (s1, [])
    else
      broadcastG (sendF fuel) n
        ((keysA room1.conns).filter (fun c => if c = conn then false else true))
        (Msg.sync (SyncMsg.upd newItems)) s1

/-- Model of the per-connection message handler of `setupConnection`.
A sync step 1 is answered with step 2 to the sender; a sync update is
applied and its new content broadcast to the other connections; an awareness
frame is applied (which fires the awareness update handler when any entry is
accepted: the handler updates the controlled ids of the origin and
broadcasts the re-encoded update of the changed clients to every
connection), after which the raw received update is broadcast to every
connection except the sender; a stats frame is answered with the connection
count; malformed and corrupt frames are dropped by the surrounding catch,
and unrecognized types fall through the switch. -/
def handleMessageF (fuel : Nat) (s : Server) (n : String) (conn : Nat) : InMsg → Server × List Ev
  | InMsg.malformed => (s, [])
  | InMsg.unknown _ => (s, [])
  | InMsg.syncCorrupt => (s, [])
  | InMsg.awCorrupt pre =>
    match lookupRoom s n with
    | none => (s, [])
    | some room =>
      (setRoom s n { room with awareness := (applyAwUpdate room.serverID room.awareness pre).1 }, [])
  | InMsg.stats =>
    match lookupRoom s n with
    | none => (s, [])
    | some room => sendF fuel s n conn (Msg.stats room.conns.length)
  | InMsg.sync (SyncMsg.step1 sv) =>
    match lookupRoom s n with
    | none => (s, [])
    | some room => sendF fuel s n conn (Msg.sync (SyncMsg.step2 (room.ydoc \ sv)))
  | InMsg.sync (SyncMsg.step2 u) => applyDocUpdate fuel s n conn u
  | InMsg.sync (SyncMsg.upd u) => applyDocUpdate fuel s n conn u
  | InMsg.aw entries =>
    match lookupRoom s n with
    | none => (s, [])
    | some room =>
      let ap := applyAwUpdate room.serverID room.awareness entries
      let changed := ap.2.1 ++ ap.2.2.1 ++ ap.2.2.2
      let hb :=
        if changed = [] then (setRoom s n { room with awareness := ap.1 }, ([] : List Ev))
        else
          let conns1 :=
            match getA room.conns conn with
            | some ids =>
              let ids1 := ap.2.1.foldl (fun l i => if i ∈ l then l else l ++ [i]) ids
              let ids2 := ap.2.2.2.foldl
                (fun l i => l.filter (fun x => if x = i then false else true)) ids1
              setA room.conns conn ids2
            | none => room.conns
          let room2 : Room := { room with awareness := ap.1, conns := conns1 }
          broadcastG (sendF fuel) n (keysA conns1) (Msg.aw (encodeAw ap.1 changed)) (setRoom s n room2)
      let othersNow :=
        match lookupRoom hb.1 n with
        | some r2 => (keysA r2.conns).filter (fun c => if c = conn then false else true)
        | none => []
      let eb := broadcastG (sendF fuel) n othersNow (Msg.aw entries) hb.1
      (eb.1, hb.2 ++ eb.2)

/-- Model of `getYDoc` (`map.setIfUndefined` on the global `docs` map): the
existing room is reused, otherwise a fresh one is created. -/
def getYDoc (s : Server) (n : String) : Server :=
  if (lookupRoom s n).isSome then s else setRoom s n freshRoom

/-- Model of the connect-time part of `setupConnection`: resolve or create
the room, register the connection with an empty controlled set, send sync
step 1 with the document's state vector, then, if the awareness table is
non-empty, send one awareness frame encoding the full current state. -/
def setupConnectionF (fuel : Nat) (s : Server) (n : String) (conn : Nat) : Server × List Ev :=
  let s0 := getYDoc s n
  let room := (lookupRoom s0 n).getD freshRoom
  let room1 : Room := { room with conns := room.conns ++ [(conn, [])] }
  let s1 := setRoom s0 n room1
  let r1 := sendF fuel s1 n conn (Msg.sync (SyncMsg.step1 room1.ydoc))
  let r2 :=
    match lookupRoom r1.1 n with
    | some rr =>
      if rr.awareness.states = [] then (r1.1, ([] : List Ev))
      else sendF fuel r1.1 n conn (Msg.aw (encodeAw rr.awareness (keysA rr.awareness.states)))
    | none => (r1.1, ([] : List Ev))
  (r2.1, r1.2 ++ r2.2)

/-- Total number of registered connections over all rooms. -/
def totalConns (s : Server) : Nat := (s.docs.map (fun p => p.2.conns.length)).sum

/-- Fuel supplied at the entry points; strictly more than the registrations
that a close cascade can consume. -/
def serverFuel (s : Server) : Nat := totalConns s + 2

def send (s : Server) (n : String) (c : Nat) (m : Msg) : Server × List Ev :=
  sendF (serverFuel s) s n c m

def closeConn (s : Server) (n : String) (c : Nat) : Server × List Ev :=
  closeConnCore (sendF (serverFuel s)) s n c

def handleMessage (s : Server) (n : String) (c : Nat) (msg : InMsg) : Server × List Ev :=
  handleMessageF (serverFuel s) s n c msg

def setupConnection (s : Server) (n : String) (c : Nat) : Server × List Ev :=
  setupConnectionF (serverFuel s) s n c

/-- Connection map of the room of the given name (empty if the room does not
exist). -/
def connsOf (s : Server) (n : String) : List (Nat × List Nat) :=
  match lookupRoom s n with
  | some r => r.conns
  | none => []

/-- Whether a connection is registered in the room of the given name. -/
def connRegistered (s : Server) (n : String) (c : Nat) : Bool :=
  match lookupRoom s n with
  | some r => (getA r.conns c).isSome
  | none => false

/-- Presence table entry of a participant id in the room of the given name. -/
def presenceOf (s : Server) (n : String) (i : Nat) : Option String :=
  match lookupRoom s n with
  | some r => getA r.awareness.states i
  | none => none

/-- Inbound frames whose processing throws: an undecodable type tag, a sync
payload that fails to read or apply, or an awareness payload that fails to
decode after a prefix of entries was applied. -/
def CorruptFrame (m : InMsg) : Prop :=
  m = InMsg.malformed ∨ m = InMsg.syncCorrupt ∨ ∃ pre, m = InMsg.awCorrupt pre

/-! Basic lemmas about the association-list operations. -/

theorem getA_setA_self {α β : Type} [DecidableEq α] (l : List (α × β)) (k : α) (v : β) :
    getA (setA l k v) k = some v := by
  induction l with
  | nil => simp [setA, getA]
  | cons p rest ih =>
    by_cases h : p.1 = k
    · simp [setA, h, getA]
    · simp [setA, h, getA, ih]

theorem keysA_setA {α β : Type} [DecidableEq α] (l : List (α × β)) (k : α) (v : β)
    (h : (getA l k).isSome) : keysA (setA l k v) = keysA l := by
  induction l with
  | nil => simp [getA] at h
  | cons p rest ih =>
    by_cases hp : p.1 = k
    · simp [setA, hp, keysA]
    · simp [getA, hp] at h
      simp [setA, hp, keysA] at ih ⊢
      exact ih h

theorem getA_delA_self {α β : Type} [DecidableEq α] (l : List (α × β)) (k : α) :
    getA (delA l k) k = none := by
  induction l with
  | nil => simp [delA, getA]
  | cons p rest ih =>
    by_cases h : p.1 = k
    · simpa [delA, h] using ih
    · simp [delA, h, getA] at ih ⊢
      exact ih

theorem delA_cons_eq {α β : Type} [DecidableEq α] (p : α × β) (rest : List (α × β)) (k : α)
    (h : p.1 = k) : delA (p :: rest) k = delA rest k := by
  simp [delA, List.filter_cons, h]

theorem delA_cons_ne {α β : Type} [DecidableEq α] (p : α × β) (rest : List (α × β)) (k : α)
    (h : ¬p.1 = k) : delA (p :: rest) k = p :: delA rest k := by
  simp [delA, List.filter_cons, h]

theorem keysA_cons {α β : Type} (p : α × β) (rest : List (α × β)) :
    keysA (p :: rest) = p.1 :: keysA rest := rfl

theorem getA_delA_ne {α β : Type} [DecidableEq α] (l : List (α × β)) (k d : α) (hne : d ≠ k) :
    getA (delA l k) d = getA l d := by
  induction l with
  | nil => simp [delA]
  | cons p rest ih =>
    by_cases h : p.1 = k
    · rw [delA_cons_eq p rest k h, ih]
      have hpd : ¬p.1 = d := fun hc => hne (by rw [← hc, h])
      simp [getA, hpd]
    · rw [delA_cons_ne p rest k h]
      by_cases hd : p.1 = d
      · simp [getA, hd]
      · simp [getA, hd, ih]

theorem mem_keysA_delA {α β : Type} [DecidableEq α] (l : List (α × β)) (k d : α)
    (h : d ∈ keysA (delA l k)) : d ∈ keysA l ∧ d ≠ k := by
  induction l with
  | nil => simp [delA, keysA] at h
  | cons p rest ih =>
    by_cases hp : p.1 = k
    · rw [delA_cons_eq p rest k hp] at h
      rcases ih h with ⟨h1, h2⟩
      refine ⟨?_, h2⟩
      rw [keysA_cons]
      exact List.mem_cons_of_mem _ h1
    · rw [delA_cons_ne p rest k hp, keysA_cons] at h
      rcases List.mem_cons.mp h with h' | h'
      · refine ⟨by rw [keysA_cons, h']; exact List.mem_cons_self _ _, ?_⟩
        intro hc
        exact hp (by rw [← h', hc])
      · rcases ih h' with ⟨h1, h2⟩
        refine ⟨?_, h2⟩
        rw [keysA_cons]
        exact List.mem_cons_of_mem _ h1

/-! Lemmas about sending and broadcasting when transports accept writes. -/

theorem outcomeOf_setRoom (s : Server) (n : String) (r : Room) (c : Nat) :
    outcomeOf (setRoom s n r) c = outcomeOf s c := rfl

theorem sendF_ok {s : Server} {c : Nat} (n : String) (m : Msg) {fuel : Nat}
    (hf : 0 < fuel) (h : outcomeOf s c = SendOutcome.ok) :
    sendF fuel s n c m = (s, [Ev.deliver c m]) := by
  cases fuel with
  | zero => exact absurd hf (by simp)
  | succ k => simp [sendF, h]

theorem bfold_ok (fuel : Nat) (n : String) (m : Msg) :
    ∀ (cs : List Nat) (s : Server) (acc : List Ev), 0 < fuel →
    (∀ c ∈ cs, outcomeOf s c = SendOutcome.ok) →
    cs.foldl (bstepG (sendF fuel) n m) (s, acc) = (s, acc ++ cs.map (fun c => Ev.deliver c m)) := by
  intro cs
  induction cs with
  | nil => intro s acc _ _; simp
  | cons c rest ih =>
    intro s acc hf hok
    have h1 : sendF fuel s n c m = (s, [Ev.deliver c m]) :=
      sendF_ok n m hf (hok c (List.mem_cons_self c rest))
    have h2 := ih s (acc ++ [Ev.deliver c m]) hf (fun d hd => hok d (List.mem_cons_of_mem c hd))
    simp only [List.foldl_cons, bstepG, h1, h2]
    simp

theorem broadcastG_ok {fuel : Nat} (n : String) (m : Msg) (cs : List Nat) (s : Server)
    (hf : 0 < fuel) (hok : ∀ c ∈ cs, outcomeOf s c = SendOutcome.ok) :
    broadcastG (sendF fuel) n cs m s = (s, cs.map (fun c => Ev.deliver c m)) := by
  have := bfold_ok fuel n m cs s [] hf hok
  simpa [broadcastG] using this

/-! Lemmas about awareness-state removal. -/

theorem removeStates_none_mono (sid : Nat) :
    ∀ (ids : List Nat) (aw : Awareness) (x : Nat), getA aw.states x = none →
    getA (removeStates sid aw ids).1.states x = none := by
  intro ids
  induction ids with
  | nil => intro aw x h; simpa [removeStates] using h
  | cons i rest ih =>
    intro aw x h
    by_cases hp : (getA aw.states i).isSome
    · simp only [removeStates, hp, if_true]
      apply ih
      by_cases hx : x = i
      · subst hx; exact getA_delA_self _ _
      · rw [getA_delA_ne _ _ _ hx]; exact h
    · simp only [removeStates, hp, if_false]
      exact ih aw x h

theorem removeStates_removes (sid : Nat) :
    ∀ (ids : List Nat) (aw : Awareness) (x : Nat), x ∈ ids →
    getA (removeStates sid aw ids).1.states x = none := by
  intro ids
  induction ids with
  | nil => intro aw x h; simp at h
  | cons i rest ih =>
    intro aw x h
    rcases List.mem_cons.mp h with h | h
    · subst h
      by_cases hp : (getA aw.states x).isSome
      · simp only [removeStates, hp, if_true]
        exact removeStates_none_mono sid rest _ x (getA_delA_self _ _)
      · simp only [removeStates, hp, if_false]
        apply removeStates_none_mono
        cases hg : getA aw.states x with
        | none => rfl
        | some v => rw [hg] at hp; simp at hp
    · by_cases hp : (getA aw.states i).isSome
      · simp only [removeStates, hp, if_true]
        exact ih _ x h
      · simp only [removeStates, hp, if_false]
        exact ih aw x h

theorem removeStates_all_present (sid : Nat) :
    ∀ (ids : List Nat) (aw : Awareness), ids.Nodup →
    (∀ i ∈ ids, (getA aw.states i).isSome) →
    (removeStates sid aw ids).2 = ids := by
  intro ids
  induction ids with
  | nil => intro aw _ _; simp [removeStates]
  | cons i rest ih =>
    intro aw hnd hall
    have hp : (getA aw.states i).isSome := hall i (List.mem_cons_self i rest)
    simp only [removeStates, hp, if_true]
    have hrest : ∀ j ∈ rest, (getA (delA aw.states i) j).isSome := by
      intro j hj
      have hji : j ≠ i := by
        intro hc; subst hc
        exact (List.nodup_cons.mp hnd).1 hj
      rw [getA_delA_ne _ _ _ hji]
      exact hall j (List.mem_cons_of_mem i hj)
    rw [ih _ (List.nodup_cons.mp hnd).2 hrest]

theorem lookupRoom_setRoom (s : Server) (n : String) (r : Room) :
    lookupRoom (setRoom s n r) n = some r := getA_setA_self _ _ _

theorem lookupRoom_dropRoom (s : Server) (n : String) :
    lookupRoom (dropRoom s n) n = none := getA_delA_self _ _

theorem serverFuel_pos (s : Server) : 0 < serverFuel s := by
  unfold serverFuel
  omega

/-- Claim C8: a SYNC frame carrying a step-1 payload (the peer's state
vector) makes the relay compute the minimal missing update and send a
step-2 reply containing it to the sender only; no other connection receives
it and no state changes. -/
theorem c8_step1_reply (s : Server) (n : String) (c : Nat) (sv : Finset Nat) (room : Room)
    (hroom : lookupRoom s n = some room) (hok : outcomeOf s c = SendOutcome.ok) :
    handleMessage s n c (InMsg.sync (SyncMsg.step1 sv)) =
      (s, [Ev.deliver c (Msg.sync (SyncMsg.step2 (room.ydoc \ sv)))]) := by
  unfold handleMessage
  simp only [handleMessageF, hroom]
  exact sendF_ok n _ (serverFuel_pos s) hok

/-- Witness for C8 at a concrete state. -/
theorem c8_step1_reply_witness :
    lookupRoom (Server.mk [("r", Room.mk 0 [(1, []), (2, [])] (Awareness.mk [] [(0, 1)]) {7})] [])
        "r" = some (Room.mk 0 [(1, []), (2, [])] (Awareness.mk [] [(0, 1)]) {7}) ∧
    handleMessage (Server.mk [("r", Room.mk 0 [(1, []), (2, [])] (Awareness.mk [] [(0, 1)]) {7})] [])
        "r" 1 (InMsg.sync (SyncMsg.step1 ∅)) =
      (Server.mk [("r", Room.mk 0 [(1, []), (2, [])] (Awareness.mk [] [(0, 1)]) {7})] [],
       [Ev.deliver 1 (Msg.sync (SyncMsg.step2 (({7} : Finset Nat) \ ∅)))]) :=
  ⟨by decide,
   c8_step1_reply
     (Server.mk [("r", Room.mk 0 [(1, []), (2, [])] (Awareness.mk [] [(0, 1)]) {7})] [])
     "r" 1 ∅ (Room.mk 0 [(1, []), (2, [])] (Awareness.mk [] [(0, 1)]) {7})
     (by decide) (by decide)⟩

/-- Claim C9: a STATS frame is answered with exactly one reply to the
requester containing the room's current connection count, the whole server
state is unchanged, and nothing is sent to any other connection. -/
theorem c9_stats_reply (s : Server) (n : String) (c : Nat) (room : Room)
    (hroom : lookupRoom s n = some room) (hok : outcomeOf s c = SendOutcome.ok) :
    handleMessage s n c InMsg.stats = (s, [Ev.deliver c (Msg.stats room.conns.length)]) := by
  unfold handleMessage
  simp only [handleMessageF, hroom]
  exact sendF_ok n _ (serverFuel_pos s) hok

/-- Witness for C9 at a concrete state. -/
theorem c9_stats_reply_witness :
    lookupRoom (Server.mk [("r", Room.mk 0 [(1, []), (2, [])] (Awareness.mk [] [(0, 1)]) ∅)] [])
        "r" = some (Room.mk 0 [(1, []), (2, [])] (Awareness.mk [] [(0, 1)]) ∅) ∧
    handleMessage (Server.mk [("r", Room.mk 0 [(1, []), (2, [])] (Awareness.mk [] [(0, 1)]) ∅)] [])
        "r" 1 InMsg.stats =
      (Server.mk [("r", Room.mk 0 [(1, []), (2, [])] (Awareness.mk [] [(0, 1)]) ∅)] [],
       [Ev.deliver 1 (Msg.stats 2)]) :=
  ⟨by decide,
   c9_stats_reply
     (Server.mk [("r", Room.mk 0 [(1, []), (2, [])] (Awareness.mk [] [(0, 1)]) ∅)] [])
     "r" 1 (Room.mk 0 [(1, []), (2, [])] (Awareness.mk [] [(0, 1)]) ∅)
     (by decide) (by decide)⟩

/-- Claim C10: invoking the close handler for a connection that is not (or
no longer) registered in the room leaves the whole server state unchanged,
triggers no broadcast and no room destruction, and only reissues the
transport close. -/
theorem c10_close_idempotent (s : Server) (n : String) (c : Nat)
    (h : connRegistered s n c = false) :
    closeConn s n c = (s, [Ev.closeTransport c]) := by
  unfold closeConn closeConnCore
  cases hl : lookupRoom s n with
  | none => simp [hl]
  | some room =>
    have h' : (getA room.conns c).isSome = false := by
      unfold connRegistered at h
      rw [hl] at h
      exact h
    cases hg : getA room.conns c with
    | none => simp [hl, hg]
    | some ids => rw [hg] at h'; simp at h'

/-- Witness for C10 at a concrete state: connection 9 is not registered. -/
theorem c10_close_idempotent_witness :
    connRegistered (Server.mk [("r", Room.mk 0 [(1, []), (2, [])] (Awareness.mk [] [(0, 1)]) ∅)] [])
        "r" 9 = false ∧
    closeConn (Server.mk [("r", Room.mk 0 [(1, []), (2, [])] (Awareness.mk [] [(0, 1)]) ∅)] [])
        "r" 9 =
      (Server.mk [("r", Room.mk 0 [(1, []), (2, [])] (Awareness.mk [] [(0, 1)]) ∅)] [],
       [Ev.closeTransport 9]) :=
  ⟨by decide,
   c10_close_idempotent
     (Server.mk [("r", Room.mk 0 [(1, []), (2, [])] (Awareness.mk [] [(0, 1)]) ∅)] [])
     "r" 9 (by decide)⟩

/-- Claim C3: a malformed or corrupt inbound frame is dropped: the
connection map of the room (hence registration and controlled presence ids)
is unchanged, nothing is sent, and no transport is closed. -/
theorem c3_corrupt_frame_dropped (s : Server) (n : String) (c : Nat) (msg : InMsg)
    (h : CorruptFrame msg) :
    connsOf (handleMessage s n c msg).1 n = connsOf s n ∧ (handleMessage s n c msg).2 = [] := by
  rcases h with h | h | ⟨pre, h⟩ <;> subst h
  · exact ⟨rfl, rfl⟩
  · exact ⟨rfl, rfl⟩
  · unfold handleMessage
    simp only [handleMessageF]
    cases hl : lookupRoom s n with
    | none => exact ⟨rfl, rfl⟩
    | some room =>
      refine ⟨?_, rfl⟩
      simp [connsOf, lookupRoom_setRoom, hl]

/-- Witness for C3: a corrupt awareness frame at a concrete state. -/
theorem c3_corrupt_frame_dropped_witness :
    CorruptFrame (InMsg.awCorrupt [⟨5, 1, some "s"⟩]) ∧
    connsOf (handleMessage
        (Server.mk [("r", Room.mk 0 [(1, []), (2, [])] (Awareness.mk [] [(0, 1)]) ∅)] [])
        "r" 1 (InMsg.awCorrupt [⟨5, 1, some "s"⟩])).1 "r" =
      connsOf (Server.mk [("r", Room.mk 0 [(1, []), (2, [])] (Awareness.mk [] [(0, 1)]) ∅)] []) "r" ∧
    (handleMessage
        (Server.mk [("r", Room.mk 0 [(1, []), (2, [])] (Awareness.mk [] [(0, 1)]) ∅)] [])
        "r" 1 (InMsg.awCorrupt [⟨5, 1, some "s"⟩])).2 = [] := by
  refine ⟨Or.inr (Or.inr ⟨[⟨5, 1, some "s"⟩], rfl⟩), ?_, ?_⟩
  · exact (c3_corrupt_frame_dropped
      (Server.mk [("r", Room.mk 0 [(1, []), (2, [])] (Awareness.mk [] [(0, 1)]) ∅)] [])
      "r" 1 (InMsg.awCorrupt [⟨5, 1, some "s"⟩])
      (Or.inr (Or.inr ⟨[⟨5, 1, some "s"⟩], rfl⟩))).1
  · exact (c3_corrupt_frame_dropped
      (Server.mk [("r", Room.mk 0 [(1, []), (2, [])] (Awareness.mk [] [(0, 1)]) ∅)] [])
      "r" 1 (InMsg.awCorrupt [⟨5, 1, some "s"⟩])
      (Or.inr (Or.inr ⟨[⟨5, 1, some "s"⟩], rfl⟩))).2

/-- Claim C4: at most one room per name (the registry is a map keyed by the
name): a connection arriving while the room exists reuses it unchanged; when
the last registered connection is closed the room is destroyed and removed
from the registry; and a connection arriving while no room of the name
exists creates a fresh room with empty document and empty presence table. -/
theorem c4_room_lifecycle :
    (∀ s n, (lookupRoom s n).isSome → getYDoc s n = s) ∧
    (∀ s n c ids room, lookupRoom s n = some room → room.conns = [(c, ids)] →
      lookupRoom (closeConn s n c).1 n = none) ∧
    (∀ s n, lookupRoom s n = none → lookupRoom (getYDoc s n) n = some freshRoom) := by
  refine ⟨?_, ?_, ?_⟩
  · intro s n h
    simp [getYDoc, h]
  · intro s n c ids room hroom hconns
    unfold closeConn closeConnCore
    simp only [hroom]
    have hget : getA room.conns c = some ids := by simp [hconns, getA]
    simp only [hget]
    have hdel : delA room.conns c = [] := by simp [hconns, delA, List.filter_cons]
    simp only [hdel]
    simp only [broadcastG, keysA, List.map_nil, List.foldl_nil, ite_self]
    simp only [lookupRoom_setRoom]
    simp [lookupRoom_dropRoom]
  · intro s n h
    simp [getYDoc, h, lookupRoom_setRoom]

/-- Witness for C4 at concrete states: an existing room is reused, closing
the only connection removes the room, and a fresh name creates a fresh
room. -/
theorem c4_room_lifecycle_witness :
    getYDoc (Server.mk [("r", Room.mk 0 [(1, [])] (Awareness.mk [] [(0, 1)]) ∅)] []) "r" =
      Server.mk [("r", Room.mk 0 [(1, [])] (Awareness.mk [] [(0, 1)]) ∅)] [] ∧
    lookupRoom (closeConn (Server.mk [("r", Room.mk 0 [(1, [])] (Awareness.mk [] [(0, 1)]) ∅)] [])
        "r" 1).1 "r" = none ∧
    lookupRoom (getYDoc (Server.mk [] []) "r") "r" = some freshRoom :=
  ⟨c4_room_lifecycle.1 (Server.mk [("r", Room.mk 0 [(1, [])] (Awareness.mk [] [(0, 1)]) ∅)] [])
     "r" (by decide),
   c4_room_lifecycle.2.1 (Server.mk [("r", Room.mk 0 [(1, [])] (Awareness.mk [] [(0, 1)]) ∅)] [])
     "r" 1 [] (Room.mk 0 [(1, [])] (Awareness.mk [] [(0, 1)]) ∅) (by decide) (by decide),
   c4_room_lifecycle.2.2 (Server.mk [] []) "r" (by decide)⟩

/-- Characterisation of `applyDocUpdate` when the update carries new content
and every registered transport accepts the write: the document absorbs the
update and the incremental new content is broadcast to every registered
connection except the origin. -/
theorem applyDocUpdate_ok (fuel : Nat) (s : Server) (n : String) (conn : Nat) (u : Finset Nat)
    (room : Room) (hf : 0 < fuel) (hroom : lookupRoom s n = some room)
    (hok : ∀ c ∈ keysA room.conns, outcomeOf s c = SendOutcome.ok)
    (hnew : u \ room.ydoc ≠ ∅) :
    applyDocUpdate fuel s n conn u =
      (setRoom s n { room with ydoc := room.ydoc ∪ u },
       ((keysA room.conns).filter (fun c => if c = conn then false else true)).map
         (fun c => Ev.deliver c (Msg.sync (SyncMsg.upd (u \ room.ydoc))))) := by
  unfold applyDocUpdate
  simp only [hroom, hnew, if_neg, ite_false]
  rw [broadcastG_ok n _ _ _ hf]
  intro c hc
  rw [outcomeOf_setRoom]
  exact hok c (List.mem_of_mem_filter hc)

/-- Claim C2: a document update originated by connection A that carries new
content is broadcast (as the incremental new content) to every other
registered connection in the room, and nothing at all is delivered to A
itself in the step, whether the update arrived as a sync step-2 or as a
sync update payload. -/
theorem c2_doc_update_echo_suppression (s : Server) (n : String) (A : Nat) (u : Finset Nat)
    (room : Room) (hroom : lookupRoom s n = some room)
    (hok : ∀ c ∈ keysA room.conns, outcomeOf s c = SendOutcome.ok)
    (hnew : u \ room.ydoc ≠ ∅)
    (msg : InMsg) (hmsg : msg = InMsg.sync (SyncMsg.step2 u) ∨ msg = InMsg.sync (SyncMsg.upd u)) :
    (∀ D ∈ keysA room.conns, D ≠ A →
      Ev.deliver D (Msg.sync (SyncMsg.upd (u \ room.ydoc))) ∈ (handleMessage s n A msg).2) ∧
    (∀ m, Ev.deliver A m ∉ (handleMessage s n A msg).2) := by
  have hred : (handleMessage s n A msg).2 =
      ((keysA room.conns).filter (fun c => if c = A then false else true)).map
        (fun c => Ev.deliver c (Msg.sync (SyncMsg.upd (u \ room.ydoc)))) := by
    rcases hmsg with h | h <;> subst h <;>
      · unfold handleMessage
        simp only [handleMessageF]
        rw [applyDocUpdate_ok (serverFuel s) s n A u room (serverFuel_pos s) hroom hok hnew]
  rw [hred]
  constructor
  · intro D hD hDA
    apply List.mem_map_of_mem
    apply List.mem_filter.mpr
    refine ⟨hD, ?_⟩
    simp [hDA]
  · intro m hm
    rcases List.mem_map.mp hm with ⟨c, hc, hceq⟩
    have hcA : c = A := by
      injection hceq with h1 h2
    have := (List.mem_filter.mp hc).2
    rw [hcA] at this
    simp at this

/-- Witness for C2 at a concrete state: connection 1 sends an update with
new content to a room containing connections 1 and 2. -/
theorem c2_doc_update_echo_suppression_witness :
    (Ev.deliver 2 (Msg.sync (SyncMsg.upd (({7} : Finset Nat) \ ∅))) ∈
      (handleMessage (Server.mk [("r", Room.mk 0 [(1, []), (2, [])] (Awareness.mk [] [(0, 1)]) ∅)] [])
        "r" 1 (InMsg.sync (SyncMsg.upd ({7} : Finset Nat)))).2) ∧
    (∀ m, Ev.deliver 1 m ∉
      (handleMessage (Server.mk [("r", Room.mk 0 [(1, []), (2, [])] (Awareness.mk [] [(0, 1)]) ∅)] [])
        "r" 1 (InMsg.sync (SyncMsg.upd ({7} : Finset Nat)))).2) :=
  ⟨(c2_doc_update_echo_suppression
      (Server.mk [("r", Room.mk 0 [(1, []), (2, [])] (Awareness.mk [] [(0, 1)]) ∅)] [])
      "r" 1 {7} (Room.mk 0 [(1, []), (2, [])] (Awareness.mk [] [(0, 1)]) ∅)
      (by decide) (by decide) (by decide) _ (Or.inr rfl)).1 2 (by decide) (by decide),
   (c2_doc_update_echo_suppression
      (Server.mk [("r", Room.mk 0 [(1, []), (2, [])] (Awareness.mk [] [(0, 1)]) ∅)] [])
      "r" 1 {7} (Room.mk 0 [(1, []), (2, [])] (Awareness.mk [] [(0, 1)]) ∅)
      (by decide) (by decide) (by decide) _ (Or.inr rfl)).2⟩

/-- Characterisation of `closeConn` for a registered connection when every
remaining transport accepts writes: the connection is deregistered, its
controlled awareness states are removed, the actually-removed ids are
announced in one awareness broadcast to every remaining connection, the room
is dropped when it became empty, and the transport is closed. -/
theorem closeConnCore_ok (fuel : Nat) (s : Server) (n : String) (conn : Nat) (ids : List Nat)
    (room : Room) (hf : 0 < fuel) (hroom : lookupRoom s n = some room)
    (hids : getA room.conns conn = some ids)
    (hok : ∀ c ∈ keysA (delA room.conns conn), outcomeOf s c = SendOutcome.ok) :
    closeConnCore (sendF fuel) s n conn =
      ((if delA room.conns conn = []
        then dropRoom (setRoom s n (Room.mk room.serverID (delA room.conns conn)
               (removeStates room.serverID room.awareness ids).1 room.ydoc)) n
        else setRoom s n (Room.mk room.serverID (delA room.conns conn)
               (removeStates room.serverID room.awareness ids).1 room.ydoc)),
       (if (removeStates room.serverID room.awareness ids).2 = [] then []
        else (keysA (delA room.conns conn)).map
          (fun d => Ev.deliver d (Msg.aw (encodeAw (removeStates room.serverID room.awareness ids).1
                      (removeStates room.serverID room.awareness ids).2))))
       ++ [Ev.closeTransport conn]) := by
  unfold closeConnCore
  simp only [hroom, hids]
  by_cases hrs : (removeStates room.serverID room.awareness ids).2 = []
  · simp only [hrs, ite_true, lookupRoom_setRoom]
  · simp only [hrs, ite_false]
    rw [broadcastG_ok n _ _ _ hf]
    · simp only [lookupRoom_setRoom]
    · intro c hc
      rw [outcomeOf_setRoom]
      exact hok c hc

/-- Claim C6: closing a connection that controls the non-empty id set `ids`,
all of which are present in the presence table, removes every one of those
ids from the presence table and sends exactly one presence-removal broadcast
covering exactly those ids to every remaining registered connection, before
closing the transport. -/
theorem c6_disconnect_removal (s : Server) (n : String) (conn : Nat) (ids : List Nat)
    (room : Room) (hroom : lookupRoom s n = some room)
    (hids : getA room.conns conn = some ids)
    (hne : ids ≠ []) (hnd : ids.Nodup)
    (hpresent : ∀ i ∈ ids, (getA room.awareness.states i).isSome)
    (hok : ∀ c ∈ keysA (delA room.conns conn), outcomeOf s c = SendOutcome.ok) :
    (closeConn s n conn).2 =
      (keysA (delA room.conns conn)).map
        (fun d => Ev.deliver d (Msg.aw (encodeAw
          (removeStates room.serverID room.awareness ids).1 ids)))
      ++ [Ev.closeTransport conn] ∧
    ∀ i ∈ ids, presenceOf (closeConn s n conn).1 n i = none := by
  have hrs2 : (removeStates room.serverID room.awareness ids).2 = ids :=
    removeStates_all_present room.serverID ids room.awareness hnd hpresent
  unfold closeConn
  rw [closeConnCore_ok (serverFuel s) s n conn ids room (serverFuel_pos s) hroom hids hok]
  constructor
  · simp only [hrs2, hne, ite_false]
  · intro i hi
    by_cases hdel : delA room.conns conn = []
    · simp only [hdel, ite_true]
      simp [presenceOf, lookupRoom_dropRoom]
    · simp only [hdel, ite_false]
      simp only [presenceOf, lookupRoom_setRoom]
      exact removeStates_removes room.serverID ids room.awareness i hi

/-- Witness for C6: connection 1 controls id 5 (present in the table) and
disconnects; connection 2 remains. -/
theorem c6_disconnect_removal_witness :
    (closeConn (Server.mk [("r", Room.mk 0 [(1, [5]), (2, [])]
        (Awareness.mk [(5, "s")] [(0, 1), (5, 1)]) ∅)] []) "r" 1).2 =
      [Ev.deliver 2 (Msg.aw [⟨5, 1, none⟩]), Ev.closeTransport 1] ∧
    presenceOf (closeConn (Server.mk [("r", Room.mk 0 [(1, [5]), (2, [])]
        (Awareness.mk [(5, "s")] [(0, 1), (5, 1)]) ∅)] []) "r" 1).1 "r" 5 = none := by
  have h := c6_disconnect_removal
    (Server.mk [("r", Room.mk 0 [(1, [5]), (2, [])]
      (Awareness.mk [(5, "s")] [(0, 1), (5, 1)]) ∅)] [])
    "r" 1 [5] (Room.mk 0 [(1, [5]), (2, [])] (Awareness.mk [(5, "s")] [(0, 1), (5, 1)]) ∅)
    (by decide) (by decide) (by decide) (by decide) (by decide) (by decide)
  refine ⟨?_, h.2 5 (by decide)⟩
  rw [h.1]
  decide

/-- Unfolding of a failing send: a send on a transport that is not open or
whose write fails invokes the close cleanup. -/
theorem sendF_fail (fuel : Nat) (s : Server) (n : String) (c : Nat) (m : Msg) (hf : 0 < fuel)
    (hbad : outcomeOf s c ≠ SendOutcome.ok) :
    sendF fuel s n c m = closeConnCore (sendF (fuel - 1)) s n c := by
  cases fuel with
  | zero => exact absurd hf (lt_irrefl 0)
  | succ k =>
    cases ho : outcomeOf s c with
    | ok => exact absurd ho hbad
    | notOpen => simp only [sendF, ho, Nat.succ_sub_one]
    | writeErr => simp only [sendF, ho, Nat.succ_sub_one]

/-- Claim C7: a send to a registered connection whose transport is not open
or whose write fails treats the connection as closed: nothing is delivered
to it, it is deregistered, its controlled presence ids are removed, and the
room is destroyed when it becomes empty. -/
theorem c7_send_failure (s : Server) (n : String) (c : Nat) (m : Msg) (ids : List Nat)
    (room : Room) (hroom : lookupRoom s n = some room)
    (hreg : getA room.conns c = some ids)
    (hbad : outcomeOf s c ≠ SendOutcome.ok)
    (hok : ∀ d ∈ keysA (delA room.conns c), outcomeOf s d = SendOutcome.ok) :
    (∀ m', Ev.deliver c m' ∉ (send s n c m).2) ∧
    connRegistered (send s n c m).1 n c = false ∧
    (∀ i ∈ ids, presenceOf (send s n c m).1 n i = none) ∧
    (room.conns = [(c, ids)] → lookupRoom (send s n c m).1 n = none) := by
  have hf1 : 0 < serverFuel s - 1 := by unfold serverFuel; omega
  have h1 : send s n c m = closeConnCore (sendF (serverFuel s - 1)) s n c :=
    sendF_fail (serverFuel s) s n c m (serverFuel_pos s) hbad
  rw [h1, closeConnCore_ok (serverFuel s - 1) s n c ids room hf1 hroom hreg hok]
  refine ⟨?_, ?_, ?_, ?_⟩
  · intro m' hm'
    simp only [] at hm'
    rcases List.mem_append.mp hm' with hm' | hm'
    · by_cases hrs : (removeStates room.serverID room.awareness ids).2 = []
      · rw [if_pos hrs] at hm'
        simp at hm'
      · rw [if_neg hrs] at hm'
        rcases List.mem_map.mp hm' with ⟨d, hd, hdeq⟩
        have hdc : d = c := by injection hdeq with hh _
        exact (mem_keysA_delA room.conns c d hd).2 hdc
    · simp at hm'
  · by_cases hdel : delA room.conns c = []
    · rw [if_pos hdel]
      simp [connRegistered, lookupRoom_dropRoom]
    · rw [if_neg hdel]
      simp [connRegistered, lookupRoom_setRoom, getA_delA_self]
  · intro i hi
    by_cases hdel : delA room.conns c = []
    · rw [if_pos hdel]
      simp [presenceOf, lookupRoom_dropRoom]
    · rw [if_neg hdel]
      simp only [presenceOf, lookupRoom_setRoom]
      exact removeStates_removes room.serverID ids room.awareness i hi
  · intro hconns
    have hdel : delA room.conns c = [] := by
      simp [hconns, delA, List.filter_cons]
    rw [if_pos hdel]
    exact lookupRoom_dropRoom _ _

/-- Witness for C7: connection 1's transport is not open; it controls id 5;
connection 2 remains; nothing is delivered to connection 1, it is
deregistered and its presence entry is removed. -/
theorem c7_send_failure_witness :
    (∀ m', Ev.deliver 1 m' ∉
      (send (Server.mk [("r", Room.mk 0 [(1, [5]), (2, [])]
          (Awareness.mk [(5, "s")] [(0, 1), (5, 1)]) ∅)] [(1, SendOutcome.notOpen)])
        "r" 1 (Msg.stats 0)).2) ∧
    connRegistered (send (Server.mk [("r", Room.mk 0 [(1, [5]), (2, [])]
          (Awareness.mk [(5, "s")] [(0, 1), (5, 1)]) ∅)] [(1, SendOutcome.notOpen)])
        "r" 1 (Msg.stats 0)).1 "r" 1 = false ∧
    presenceOf (send (Server.mk [("r", Room.mk 0 [(1, [5]), (2, [])]
          (Awareness.mk [(5, "s")] [(0, 1), (5, 1)]) ∅)] [(1, SendOutcome.notOpen)])
        "r" 1 (Msg.stats 0)).1 "r" 5 = none := by
  have h := c7_send_failure
    (Server.mk [("r", Room.mk 0 [(1, [5]), (2, [])]
      (Awareness.mk [(5, "s")] [(0, 1), (5, 1)]) ∅)] [(1, SendOutcome.notOpen)])
    "r" 1 (Msg.stats 0) [5]
    (Room.mk 0 [(1, [5]), (2, [])] (Awareness.mk [(5, "s")] [(0, 1), (5, 1)]) ∅)
    (by decide) (by decide) (by decide) (by decide)
  exact ⟨h.1, h.2.1, h.2.2.1 5 (by decide)⟩

/-- Claim C5 (amended): on every new connection the relay first sends
Sync-Step-1 with its state vector and then, if at least one participant is
known in the room, a single PRESENCE frame encoding the current state of all
known participants, before anything else reaches that connection.  A
connection joining a room with an empty presence table receives no PRESENCE
frame at all. -/
theorem c5_initial_presence_snapshot (s : Server) (n : String) (c : Nat)
    (hok : outcomeOf s c = SendOutcome.ok) :
    (setupConnection s n c).2 =
      Ev.deliver c (Msg.sync (SyncMsg.step1 ((lookupRoom s n).getD freshRoom).ydoc)) ::
      (if ((lookupRoom s n).getD freshRoom).awareness.states = [] then []
       else [Ev.deliver c (Msg.aw (encodeAw ((lookupRoom s n).getD freshRoom).awareness
              (keysA ((lookupRoom s n).getD freshRoom).awareness.states)))]) := by
  unfold setupConnection setupConnectionF getYDoc
  cases hl : lookupRoom s n with
  | some room =>
    have hs1 : outcomeOf (setRoom s n (Room.mk room.serverID (room.conns ++ [(c, [])])
        room.awareness room.ydoc)) c = SendOutcome.ok := by
      rw [outcomeOf_setRoom]; exact hok
    simp only [hl, Option.isSome_some, ite_true, Option.getD_some]
    rw [sendF_ok n _ (serverFuel_pos s) hs1]
    simp only [lookupRoom_setRoom]
    by_cases hst : room.awareness.states = []
    · simp [hst]
    · simp only [hst, ite_false]
      rw [sendF_ok n _ (serverFuel_pos s) hs1]
      simp
  | none =>
    have hs1 : outcomeOf (setRoom (setRoom s n freshRoom) n
        (Room.mk freshRoom.serverID (freshRoom.conns ++ [(c, [])])
          freshRoom.awareness freshRoom.ydoc)) c = SendOutcome.ok := by
      rw [outcomeOf_setRoom, outcomeOf_setRoom]; exact hok
    simp only [hl, Option.isSome_none, Bool.false_eq_true, ite_false, Option.getD_none,
      lookupRoom_setRoom, Option.getD_some]
    rw [sendF_ok n _ (serverFuel_pos s) hs1]
    simp [freshRoom, lookupRoom_setRoom]

/-- Witness for C5 (amended) at a concrete state: connecting to a room whose
presence table holds participant 5 yields the step-1 frame followed by the
full presence snapshot. -/
theorem c5_initial_presence_snapshot_witness :
    (setupConnection (Server.mk [("r", Room.mk 0 [(1, [5])]
        (Awareness.mk [(5, "s")] [(0, 1), (5, 1)]) {7})] []) "r" 2).2 =
      Ev.deliver 2 (Msg.sync (SyncMsg.step1
        ((lookupRoom (Server.mk [("r", Room.mk 0 [(1, [5])]
          (Awareness.mk [(5, "s")] [(0, 1), (5, 1)]) {7})] []) "r").getD freshRoom).ydoc)) ::
      (if ((lookupRoom (Server.mk [("r", Room.mk 0 [(1, [5])]
          (Awareness.mk [(5, "s")] [(0, 1), (5, 1)]) {7})] []) "r").getD freshRoom).awareness.states
          = [] then []
       else [Ev.deliver 2 (Msg.aw (encodeAw
          ((lookupRoom (Server.mk [("r", Room.mk 0 [(1, [5])]
            (Awareness.mk [(5, "s")] [(0, 1), (5, 1)]) {7})] []) "r").getD freshRoom).awareness
          (keysA ((lookupRoom (Server.mk [("r", Room.mk 0 [(1, [5])]
            (Awareness.mk [(5, "s")] [(0, 1), (5, 1)]) {7})] []) "r").getD
              freshRoom).awareness.states)))]) :=
  c5_initial_presence_snapshot
    (Server.mk [("r", Room.mk 0 [(1, [5])] (Awareness.mk [(5, "s")] [(0, 1), (5, 1)]) {7})] [])
    "r" 2 (by decide)

/-- Counterexample to claim C5 as stated: a connection joining a fresh room
(zero known participants) receives only the Sync-Step-1 frame and no
PRESENCE frame at all, because the relay only sends the snapshot when the
awareness table is non-empty. -/
theorem c5_no_snapshot_on_empty_room :
    (setupConnection (Server.mk [] []) "r" 1).2 =
      [Ev.deliver 1 (Msg.sync (SyncMsg.step1 ∅))] ∧
    (setupConnection (Server.mk [] []) "r" 1).2.countP
      (fun e => match e with
        | Ev.deliver _ (Msg.aw _) => true
        | _ => false) = 0 := by
  constructor
  · decide
  · decide

/-- Claim C1, evaluated at a failing input: room "r" holds connections 1 and
2; connection 1 sends the presence update `[(client 5, clock 1, "s")]`.  The
awareness update handler of `WSSharedDoc` broadcasts the re-encoded update
of the changed clients to every connection with no origin check (its own
comment says "all OTHER connected clients"), and the explicit forward then
sends the raw update to the others.  Hence the sender receives a copy of its
own update back (first event, byte-identical here), refuting "C itself
receives no copy of it back", and connection 2 receives the update twice. -/
theorem c1_presence_echo_to_sender :
    (handleMessage (Server.mk [("r", Room.mk 0 [(1, []), (2, [])] (Awareness.mk [] [(0, 1)]) ∅)] [])
        "r" 1 (InMsg.aw [⟨5, 1, some "s"⟩])).2 =
      [Ev.deliver 1 (Msg.aw [⟨5, 1, some "s"⟩]),
       Ev.deliver 2 (Msg.aw [⟨5, 1, some "s"⟩]),
       Ev.deliver 2 (Msg.aw [⟨5, 1, some "s"⟩])] := by decide
